import Mathlib

/-!
Shallow embedding of the todo application's CRUD core
(`src/todos/models.py` and `src/todos/views.py`).

Time is modelled as `Nat` (ticks of `timezone.now()`).  Users are `Nat`
identifiers supplied by the auth collaborator.  The relational store is a
`DB` record holding the `Page` and `Todo` rows together with the
auto-increment counters for their primary keys.  The framework-managed,
write-only `updated_at` columns (Django `auto_now=True`) are elided: no
view or model method ever reads them.

Each view becomes a function from the store (plus the authenticated owner
and the request parameters) to either an error of the spec's taxonomy or
the new store; read-only views return their context data.
-/

/-- Error taxonomy of section 7 of the spec. -/
inductive Err where
  | NotFound
  | DuplicateTitle
  | ValidationError
deriving DecidableEq, Repr

/-- A row of the `Page` table (`models.Page`).  `is_active` is the
soft-delete marker (default `True`), `createdAt` the `created_at`
column (`default=timezone.now`). -/
structure Page where
  id : Nat
  title : String
  description : String
  owner : Nat
  createdAt : Nat
  is_active : Bool
  color : String
deriving DecidableEq, Repr

/-- A row of the `Todo` table (`models.Todo`).  `priority` is stored as a
raw string, exactly as the `CharField` does; `pageId` is the foreign key
to `Page`.  `due_date` and `completed_at` are nullable timestamps. -/
structure Todo where
  id : Nat
  title : String
  description : String
  completed : Bool
  priority : String
  pageId : Nat
  createdAt : Nat
  due_date : Option Nat
  completed_at : Option Nat
  position : Nat
deriving DecidableEq, Repr

/-- The relational store: all page rows, all todo rows, and the
auto-increment primary-key counters. -/
structure DB where
  pages : List Page
  todos : List Todo
  nextPageId : Nat
  nextTodoId : Nat
deriving DecidableEq, Repr

/-- `Todo.save` (models.py 109-115): on save, if the row is completed and
has no completion timestamp, stamp it with the current time; if it is not
completed, clear the timestamp. -/
def todoSave (now : Nat) (t : Todo) : Todo :=
  if t.completed && t.completed_at.isNone then { t with completed_at := some now }
  else if !t.completed then { t with completed_at := none }
  else t

/-- `Todo.is_overdue` (models.py 117-122): true when a due date is set,
the row is not completed, and the current time is past the due date. -/
def is_overdue (now : Nat) (t : Todo) : Bool :=
  match t.due_date with
  | some d => if !t.completed then decide (d < now) else false
  | none => false

/-- `get_object_or_404(Page, id=page_id, owner=request.user, is_active=True)`:
the id-scoped page lookup used by every page view and by `todo_create`. -/
def getPageActive (db : DB) (owner pid : Nat) : Option Page :=
  db.pages.find? (fun p => p.id == pid && p.owner == owner && p.is_active)

/-- `get_object_or_404(Todo, id=todo_id, page__owner=request.user)`:
the id-scoped todo lookup used by `todo_edit`, `todo_delete` and
`todo_toggle`.  The join `page__owner` resolves the foreign key; note
that it does NOT require the parent page to be active. -/
def getTodoOwned (db : DB) (owner tid : Nat) : Option Todo :=
  db.todos.find? (fun t => t.id == tid &&
    ((db.pages.find? (fun p => p.id == t.pageId)).any (fun p => p.owner == owner)))

/-- Case-insensitive substring test, Django's `title__icontains=q`
(lower-case both sides, then substring).  Stated over the character
lists so that it evaluates on concrete inputs. -/
def icontains (hay q : String) : Bool :=
  decide (List.IsInfix (q.toList.map Char.toLower) (hay.toList.map Char.toLower))

/-- `page_list` (views.py 84-88): all active pages of the owner.
Default ordering (`-created_at`) does not affect membership and is
elided. -/
def page_list (db : DB) (owner : Nat) : List Page :=
  db.pages.filter (fun p => p.owner == owner && p.is_active)

/-- `page_create` (views.py 91-113): empty title is rejected inline;
otherwise the insert fails with the unique-together `(owner, title)`
constraint if any page of the owner (active or not) already has the
title; otherwise a new active page is appended and its id returned. -/
def page_create (db : DB) (owner now : Nat) (title descr color : String) :
    Except Err (DB × Nat) :=
  if title = "" then .error .ValidationError
  else if db.pages.any (fun p => p.owner == owner && p.title == title) then
    .error .DuplicateTitle
  else
    let p : Page := { id := db.nextPageId, title := title, description := descr,
                      owner := owner, createdAt := now, is_active := true,
                      color := color }
    .ok ({ db with pages := db.pages ++ [p], nextPageId := db.nextPageId + 1 },
         p.id)

/-- Per-page statistics computed by `page_detail` (views.py 143-149). -/
structure PageStats where
  total : Nat
  completed : Nat
  pending : Nat
  overdue : Nat
deriving DecidableEq, Repr

/-- `page_detail` (views.py 116-159): look up the owner's active page by
id (404 otherwise), return it with its todos filtered by status,
priority and search query, plus aggregate counts. -/
def page_detail (db : DB) (owner pid now : Nat)
    (filterStatus filterPriority searchQuery : String) :
    Except Err (Page × List Todo × PageStats) :=
  match getPageActive db owner pid with
  | none => .error .NotFound
  | some p =>
    let pageTodos := db.todos.filter (fun t => t.pageId == p.id)
    let todos1 :=
      if filterStatus = "completed" then pageTodos.filter (fun t => t.completed)
      else if filterStatus = "pending" then pageTodos.filter (fun t => !t.completed)
      else pageTodos
    let todos2 :=
      if filterPriority ≠ "all" then todos1.filter (fun t => t.priority == filterPriority)
      else todos1
    let todos3 :=
      if searchQuery ≠ "" then
        todos2.filter (fun t =>
          icontains t.title searchQuery || icontains t.description searchQuery)
      else todos2
    let stats : PageStats :=
      { total := pageTodos.length
        completed := (pageTodos.filter (fun t => t.completed)).length
        pending := (pageTodos.filter (fun t => !t.completed)).length
        overdue := (pageTodos.filter (fun t =>
          (t.due_date.any (fun d => d < now)) && !t.completed)).length }
    .ok (p, todos3, stats)

/-- `page_edit` (views.py 161-184): look up the owner's active page by id
(404 otherwise); empty title is rejected inline; saving a title already
used by another page of the same owner violates the unique-together
constraint; otherwise title, description and color are overwritten. -/
def page_edit (db : DB) (owner pid : Nat) (title descr color : String) :
    Except Err DB :=
  match getPageActive db owner pid with
  | none => .error .NotFound
  | some _ =>
    if title = "" then .error .ValidationError
    else if db.pages.any (fun q => q.owner == owner && q.title == title && q.id != pid) then
      .error .DuplicateTitle
    else
      .ok { db with pages := db.pages.map (fun q =>
              if q.id == pid then { q with title := title, description := descr,
                                           color := color }
              else q) }

/-- `page_delete` (views.py 186-197): look up the owner's active page by
id (404 otherwise) and flip `is_active` to false.  Nothing is removed
from storage. -/
def page_delete (db : DB) (owner pid : Nat) : Except Err DB :=
  match getPageActive db owner pid with
  | none => .error .NotFound
  | some _ =>
    .ok { db with pages := db.pages.map (fun q =>
            if q.id == pid then { q with is_active := false } else q) }

/-- `todo_create` (views.py 201-225): look up the owner's active page by
id (404 otherwise); empty title is rejected inline; otherwise a new todo
is inserted with `completed=False`, `position=0`, `completed_at=None`
(the model `save` runs on insert) and its id is returned. -/
def todo_create (db : DB) (owner pid now : Nat) (title descr prio : String)
    (due : Option Nat) : Except Err (DB × Nat) :=
  match getPageActive db owner pid with
  | none => .error .NotFound
  | some p =>
    if title = "" then .error .ValidationError
    else
      let t := todoSave now
        { id := db.nextTodoId, title := title, description := descr,
          completed := false, priority := prio, pageId := p.id,
          createdAt := now, due_date := due, completed_at := none,
          position := 0 }
      .ok ({ db with todos := db.todos ++ [t], nextTodoId := db.nextTodoId + 1 },
           t.id)

/-- `todo_edit` (views.py 227-249): look up the todo by id and parent-page
ownership (active flag NOT checked); empty title is rejected inline;
otherwise title, description, priority and due date are overwritten and
the model `save` runs. -/
def todo_edit (db : DB) (owner tid now : Nat) (title descr prio : String)
    (due : Option Nat) : Except Err DB :=
  match getTodoOwned db owner tid with
  | none => .error .NotFound
  | some _ =>
    if title = "" then .error .ValidationError
    else
      .ok { db with todos := db.todos.map (fun u =>
              if u.id == tid then
                todoSave now { u with title := title, description := descr,
                                      priority := prio, due_date := due }
              else u) }

/-- `todo_delete` (views.py 251-263): look up the todo by id and
parent-page ownership (active flag NOT checked) and hard-delete the row. -/
def todo_delete (db : DB) (owner tid : Nat) : Except Err DB :=
  match getTodoOwned db owner tid with
  | none => .error .NotFound
  | some _ => .ok { db with todos := db.todos.filter (fun u => u.id != tid) }

/-- `todo_toggle` (views.py 265-277): look up the todo by id and
parent-page ownership (active flag NOT checked), flip `completed`, run
the model `save`, and return the new `completed` value. -/
def todo_toggle (db : DB) (owner tid now : Nat) : Except Err (DB × Bool) :=
  match getTodoOwned db owner tid with
  | none => .error .NotFound
  | some t =>
    let t2 := todoSave now { t with completed := !t.completed }
    .ok ({ db with todos := db.todos.map (fun u => if u.id == tid then t2 else u) },
         t2.completed)

/-- Result sets of the global search (views.py 336-339). -/
structure SearchResults where
  pages : List Page
  todos : List Todo
deriving DecidableEq, Repr

/-- `search_view` (views.py 332-357): an empty query returns empty result
sets; otherwise at most 10 active owner pages whose title contains the
query case-insensitively, and at most 20 todos whose parent page belongs
to the owner (active flag NOT checked) and whose title contains the query
case-insensitively.  Default ordering does not affect the properties
proved below and is elided. -/
def search_view (db : DB) (owner : Nat) (query : String) : SearchResults :=
  if query = "" then { pages := [], todos := [] }
  else
    { pages := (db.pages.filter (fun p =>
        p.owner == owner && p.is_active && icontains p.title query)).take 10
      todos := (db.todos.filter (fun t =>
        ((db.pages.find? (fun p => p.id == t.pageId)).any (fun p => p.owner == owner))
        && icontains t.title query)).take 20 }

/-- The todos counted by the user-level aggregates
(`Todo.objects.filter(page__owner=user)`, models.py 177-179): every todo
whose parent page belongs to the user, with no `is_active` filter on the
page. -/
def userTodos (db : DB) (user : Nat) : List Todo :=
  db.todos.filter (fun t =>
    (db.pages.find? (fun p => p.id == t.pageId)).any (fun p => p.owner == user))

/-- `UserProfile.get_total_pages` (models.py 173-175): counts only the
user's ACTIVE pages. -/
def get_total_pages (db : DB) (user : Nat) : Nat :=
  (db.pages.filter (fun p => p.owner == user && p.is_active)).length

/-- `UserProfile.get_total_todos` (models.py 177-179): counts todos under
ALL of the user's pages, inactive ones included. -/
def get_total_todos (db : DB) (user : Nat) : Nat :=
  (userTodos db user).length

/-- `UserProfile.get_completed_todos` (models.py 181-183): completed todos
under ALL of the user's pages, inactive ones included. -/
def get_completed_todos (db : DB) (user : Nat) : Nat :=
  ((userTodos db user).filter (fun t => t.completed)).length

/-- Dashboard statistics (views.py 57-63): same three queries plus the
pending difference. -/
structure DashStats where
  total_pages : Nat
  total_todos : Nat
  completed_todos : Nat
  pending_todos : Nat
deriving DecidableEq, Repr

/-- `dashboard` (views.py 54-80), restricted to the statistics it
computes. -/
def dashboard (db : DB) (user : Nat) : DashStats :=
  { total_pages := get_total_pages db user
    total_todos := get_total_todos db user
    completed_todos := get_completed_todos db user
    pending_todos := get_total_todos db user - get_completed_todos db user }

/-- Row-level invariant of claim C2: `completed_at` is non-null exactly
when `completed` is true, for every todo row in the store. -/
def DBInv (db : DB) : Prop :=
  ∀ t ∈ db.todos, t.completed_at.isSome = t.completed

/-! ## Shared helper lemmas -/

/-- A row written through the model `save` always satisfies the
completed/completed_at invariant. -/
theorem todoSave_invariant (now : Nat) (t : Todo) :
    ((todoSave now t).completed_at).isSome = (todoSave now t).completed := by
  unfold todoSave
  cases hc : t.completed <;> cases ha : t.completed_at <;> simp [hc, ha]

/-- The model `save` never changes the `completed` flag, the id, or the
page of a row. -/
theorem todoSave_fields (now : Nat) (t : Todo) :
    (todoSave now t).completed = t.completed ∧ (todoSave now t).id = t.id ∧
    (todoSave now t).pageId = t.pageId := by
  unfold todoSave
  cases hc : t.completed <;> cases ha : t.completed_at <;> simp [hc, ha]

/-! ## Claims -/

/-- C9: `is_overdue` is true iff a due date is set, it is before the
current time, and the todo is not completed; a completed todo or a todo
without a due date is never overdue. -/
theorem is_overdue_iff (now : Nat) (t : Todo) :
    is_overdue now t = true ↔
      (∃ d, t.due_date = some d ∧ d < now) ∧ t.completed = false := by
  cases h : t.due_date with
  | none => simp [is_overdue, h]
  | some d => cases hc : t.completed <;> simp [is_overdue, h, hc]

/-- C2: every operation that writes a todo row (create, edit, toggle)
preserves the invariant that `completed_at` is non-null iff `completed`
is true, for every row of the resulting store. -/
theorem completed_at_iff_completed (db dbC dbE dbT : DB)
    (o pid tid now : Nat) (title descr prio : String) (due : Option Nat)
    (nid : Nat) (b : Bool)
    (hinv : DBInv db)
    (hC : todo_create db o pid now title descr prio due = .ok (dbC, nid))
    (hE : todo_edit db o tid now title descr prio due = .ok dbE)
    (hT : todo_toggle db o tid now = .ok (dbT, b)) :
    DBInv dbC ∧ DBInv dbE ∧ DBInv dbT := by
  refine ⟨?_, ?_, ?_⟩
  · cases hp : getPageActive db o pid with
    | none => simp [todo_create, hp] at hC
    | some p =>
      by_cases ht : title = ""
      · simp [todo_create, hp, ht] at hC
      · simp only [todo_create, hp, if_neg ht, Except.ok.injEq, Prod.mk.injEq] at hC
        obtain ⟨hdb, -⟩ := hC
        subst hdb
        intro u hu
        simp only [List.mem_append, List.mem_singleton] at hu
        rcases hu with hu | hu
        · exact hinv u hu
        · subst hu; exact todoSave_invariant now _
  · cases hf : getTodoOwned db o tid with
    | none => simp [todo_edit, hf] at hE
    | some t =>
      by_cases ht : title = ""
      · simp [todo_edit, hf, ht] at hE
      · simp only [todo_edit, hf, if_neg ht, Except.ok.injEq] at hE
        subst hE
        intro u hu
        simp only [List.mem_map] at hu
        obtain ⟨v, hv, hvu⟩ := hu
        by_cases hid : v.id == tid
        · rw [if_pos hid] at hvu; subst hvu; exact todoSave_invariant now _
        · rw [if_neg hid] at hvu; subst hvu; exact hinv v hv
  · cases hf : getTodoOwned db o tid with
    | none => simp [todo_toggle, hf] at hT
    | some t =>
      simp only [todo_toggle, hf, Except.ok.injEq, Prod.mk.injEq] at hT
      obtain ⟨hdb, -⟩ := hT
      subst hdb
      intro u hu
      simp only [List.mem_map] at hu
      obtain ⟨v, hv, hvu⟩ := hu
      by_cases hid : v.id == tid
      · rw [if_pos hid] at hvu; subst hvu; exact todoSave_invariant now _
      · rw [if_neg hid] at hvu; subst hvu; exact hinv v hv

/-- Witness for C2 at a concrete store: one owner, one active page, one
pending todo; create, edit and toggle all succeed and every resulting
store satisfies the invariant. -/
theorem completed_at_iff_completed_witness :
    DBInv ⟨[⟨1, "P", "", 1, 0, true, "#c"⟩],
           [⟨1, "T", "", false, "medium", 1, 0, none, none, 0⟩,
            ⟨2, "N", "", false, "medium", 1, 5, none, none, 0⟩], 2, 3⟩ ∧
    DBInv ⟨[⟨1, "P", "", 1, 0, true, "#c"⟩],
           [⟨1, "N", "", false, "medium", 1, 0, none, none, 0⟩], 2, 2⟩ ∧
    DBInv ⟨[⟨1, "P", "", 1, 0, true, "#c"⟩],
           [⟨1, "T", "", true, "medium", 1, 0, none, some 5, 0⟩], 2, 2⟩ :=
  completed_at_iff_completed
    ⟨[⟨1, "P", "", 1, 0, true, "#c"⟩],
     [⟨1, "T", "", false, "medium", 1, 0, none, none, 0⟩], 2, 2⟩
    _ _ _ 1 1 1 5 "N" "" "medium" none 2 true (by unfold DBInv; decide) rfl rfl rfl

/-- If every page row with the requested id belongs to another owner, the
id-scoped active-page lookup comes back empty. -/
theorem getPageActive_eq_none (db : DB) (o₁ o₂ pid : Nat) (hne : o₁ ≠ o₂)
    (hall : ∀ p ∈ db.pages, p.id = pid → p.owner = o₂) :
    getPageActive db o₁ pid = none := by
  rw [getPageActive, List.find?_eq_none]
  intro p hp hpred
  simp only [Bool.and_eq_true, beq_iff_eq] at hpred
  exact hne (hpred.1.2 ▸ (hall p hp hpred.1.1).symm).symm

/-- If every todo row with the requested id sits under a page belonging
to another owner, the id-scoped todo lookup comes back empty. -/
theorem getTodoOwned_eq_none (db : DB) (o₁ o₂ tid : Nat) (hne : o₁ ≠ o₂)
    (hall : ∀ t ∈ db.todos, t.id = tid →
      ∀ p ∈ db.pages, p.id = t.pageId → p.owner = o₂) :
    getTodoOwned db o₁ tid = none := by
  rw [getTodoOwned, List.find?_eq_none]
  intro t ht hpred
  simp only [Bool.and_eq_true, beq_iff_eq] at hpred
  obtain ⟨htid, hany⟩ := hpred
  cases hfp : db.pages.find? (fun p => p.id == t.pageId) with
  | none => rw [hfp] at hany; simp at hany
  | some p =>
    rw [hfp] at hany
    simp only [Option.any_some, beq_iff_eq] at hany
    have hpmem := List.mem_of_find?_eq_some hfp
    have hpid : p.id = t.pageId := by
      have := List.find?_some hfp; simpa using this
    exact hne (hany ▸ (hall t ht htid p hpmem hpid).symm).symm

/-- C1: ownership isolation.  If the page row with id `pid` and the todo
row with id `tid` belong to owner `o₂`, then every id-scoped operation
invoked by a different owner `o₁` on them (page detail, page edit, page
soft-delete, todo create-under-page, todo edit, todo delete, todo
toggle) fails with `NotFound`; in this embedding an error result carries
no new store, so no state changes and no record of `o₂` is returned or
mutated. -/
theorem ownership_isolation (db : DB) (o₁ o₂ pid tid now : Nat)
    (title descr color prio fs fp sq : String) (due : Option Nat)
    (hne : o₁ ≠ o₂)
    (_hpage : ∃ p ∈ db.pages, p.id = pid ∧ p.owner = o₂)
    (hpall : ∀ p ∈ db.pages, p.id = pid → p.owner = o₂)
    (_htodo : ∃ t ∈ db.todos, t.id = tid)
    (htall : ∀ t ∈ db.todos, t.id = tid →
      ∀ p ∈ db.pages, p.id = t.pageId → p.owner = o₂) :
    page_detail db o₁ pid now fs fp sq = .error .NotFound ∧
    page_edit db o₁ pid title descr color = .error .NotFound ∧
    page_delete db o₁ pid = .error .NotFound ∧
    todo_create db o₁ pid now title descr prio due = .error .NotFound ∧
    todo_edit db o₁ tid now title descr prio due = .error .NotFound ∧
    todo_delete db o₁ tid = .error .NotFound ∧
    todo_toggle db o₁ tid now = .error .NotFound := by
  have hgp := getPageActive_eq_none db o₁ o₂ pid hne hpall
  have hgt := getTodoOwned_eq_none db o₁ o₂ tid hne htall
  exact ⟨by simp [page_detail, hgp], by simp [page_edit, hgp],
         by simp [page_delete, hgp], by simp [todo_create, hgp],
         by simp [todo_edit, hgt], by simp [todo_delete, hgt],
         by simp [todo_toggle, hgt]⟩

/-- Witness for C1: owner 1 attacks the page and todo of owner 2; every
id-scoped operation fails with `NotFound`. -/
theorem ownership_isolation_witness :
    page_detail ⟨[⟨1, "P", "", 2, 0, true, "#c"⟩],
                 [⟨1, "T", "", false, "medium", 1, 0, none, none, 0⟩], 2, 2⟩
        1 1 5 "all" "all" "" = .error .NotFound ∧
    page_edit ⟨[⟨1, "P", "", 2, 0, true, "#c"⟩],
               [⟨1, "T", "", false, "medium", 1, 0, none, none, 0⟩], 2, 2⟩
        1 1 "X" "" "#c" = .error .NotFound ∧
    page_delete ⟨[⟨1, "P", "", 2, 0, true, "#c"⟩],
                 [⟨1, "T", "", false, "medium", 1, 0, none, none, 0⟩], 2, 2⟩
        1 1 = .error .NotFound ∧
    todo_create ⟨[⟨1, "P", "", 2, 0, true, "#c"⟩],
                 [⟨1, "T", "", false, "medium", 1, 0, none, none, 0⟩], 2, 2⟩
        1 1 5 "X" "" "medium" none = .error .NotFound ∧
    todo_edit ⟨[⟨1, "P", "", 2, 0, true, "#c"⟩],
               [⟨1, "T", "", false, "medium", 1, 0, none, none, 0⟩], 2, 2⟩
        1 1 5 "X" "" "medium" none = .error .NotFound ∧
    todo_delete ⟨[⟨1, "P", "", 2, 0, true, "#c"⟩],
                 [⟨1, "T", "", false, "medium", 1, 0, none, none, 0⟩], 2, 2⟩
        1 1 = .error .NotFound ∧
    todo_toggle ⟨[⟨1, "P", "", 2, 0, true, "#c"⟩],
                 [⟨1, "T", "", false, "medium", 1, 0, none, none, 0⟩], 2, 2⟩
        1 1 5 = .error .NotFound :=
  ownership_isolation
    ⟨[⟨1, "P", "", 2, 0, true, "#c"⟩],
     [⟨1, "T", "", false, "medium", 1, 0, none, none, 0⟩], 2, 2⟩
    1 2 1 1 5 "X" "" "#c" "medium" "all" "all" "" none
    (by decide) (by decide) (by decide) (by decide) (by decide)

/-- C3: duplicate-title rules.  With a non-empty title: creating a page
whose title is already used by one of the owner's pages — active or
inactive — fails with `DuplicateTitle` (and, the result being an error,
persists nothing); creating with a title distinct from all of the
owner's page titles succeeds and appends a new active page owned by the
caller; editing an existing page to a title already used by another page
of the owner fails with `DuplicateTitle`, while editing to a distinct
title succeeds. -/
theorem page_title_uniqueness (db : DB) (o pid now : Nat)
    (tDup tNew descr color : String)
    (hDupNe : tDup ≠ "") (hNewNe : tNew ≠ "")
    (hdup : ∃ p ∈ db.pages, p.owner = o ∧ p.title = tDup)
    (hfresh : ∀ p ∈ db.pages, p.owner = o → p.title ≠ tNew)
    (hpg : ∃ p ∈ db.pages, p.id = pid ∧ p.owner = o ∧ p.is_active = true)
    (hdupOther : ∃ p ∈ db.pages, p.owner = o ∧ p.title = tDup ∧ p.id ≠ pid) :
    page_create db o now tDup descr color = .error .DuplicateTitle ∧
    (∃ db' nid, page_create db o now tNew descr color = .ok (db', nid) ∧
      db'.todos = db.todos ∧
      db'.pages = db.pages ++
        [{ id := db.nextPageId, title := tNew, description := descr, owner := o,
           createdAt := now, is_active := true, color := color }]) ∧
    page_edit db o pid tDup descr color = .error .DuplicateTitle ∧
    (page_edit db o pid tNew descr color).isOk = true := by
  have hany : db.pages.any (fun p => p.owner == o && p.title == tDup) = true := by
    rw [List.any_eq_true]
    obtain ⟨p, hp, h1, h2⟩ := hdup
    exact ⟨p, hp, by simp [h1, h2]⟩
  have hnoany : db.pages.any (fun p => p.owner == o && p.title == tNew) = false := by
    rw [Bool.eq_false_iff, Ne, List.any_eq_true]
    rintro ⟨p, hp, hpred⟩
    simp only [Bool.and_eq_true, beq_iff_eq] at hpred
    exact hfresh p hp hpred.1 hpred.2
  have hgp : ∃ p, getPageActive db o pid = some p := by
    rw [← Option.isSome_iff_exists, getPageActive, List.find?_isSome]
    obtain ⟨p, hp, h1, h2, h3⟩ := hpg
    exact ⟨p, hp, by simp [h1, h2, h3]⟩
  obtain ⟨p, hgp⟩ := hgp
  have hanyOther :
      db.pages.any (fun q => q.owner == o && q.title == tDup && q.id != pid) = true := by
    rw [List.any_eq_true]
    obtain ⟨q, hq, h1, h2, h3⟩ := hdupOther
    exact ⟨q, hq, by simp [h1, h2, h3]⟩
  have hnoanyOther :
      db.pages.any (fun q => q.owner == o && q.title == tNew && q.id != pid) = false := by
    rw [Bool.eq_false_iff, Ne, List.any_eq_true]
    rintro ⟨q, hq, hpred⟩
    simp only [Bool.and_eq_true, beq_iff_eq] at hpred
    exact hfresh q hq hpred.1.1 hpred.1.2
  refine ⟨?_, ?_, ?_, ?_⟩
  · simp [page_create, hDupNe, hany]
  · refine ⟨{ db with
        pages := db.pages ++
          [{ id := db.nextPageId, title := tNew, description := descr, owner := o,
             createdAt := now, is_active := true, color := color }],
        nextPageId := db.nextPageId + 1 }, db.nextPageId, ?_, rfl, rfl⟩
    simp [page_create, hNewNe, hnoany]
  · simp [page_edit, hgp, hDupNe, hanyOther]
  · simp [page_edit, hgp, hNewNe, hnoanyOther, Except.isOk, Except.toBool]

/-- Witness for C3: an owner with an active page "A" (id 1) and an
inactive page "B" (id 2); creating "B" again duplicates the inactive
page's title and fails, creating "C" succeeds, editing page 1 to "B"
fails, editing page 1 to "C" succeeds. -/
theorem page_title_uniqueness_witness :
    page_create ⟨[⟨1, "A", "", 1, 0, true, "#c"⟩, ⟨2, "B", "", 1, 0, false, "#c"⟩],
                 [], 3, 1⟩ 1 5 "B" "" "#c" = .error .DuplicateTitle ∧
    (∃ db' nid,
      page_create ⟨[⟨1, "A", "", 1, 0, true, "#c"⟩, ⟨2, "B", "", 1, 0, false, "#c"⟩],
                   [], 3, 1⟩ 1 5 "C" "" "#c" = .ok (db', nid) ∧
      db'.todos = ([] : List Todo) ∧
      db'.pages = [⟨1, "A", "", 1, 0, true, "#c"⟩, ⟨2, "B", "", 1, 0, false, "#c"⟩] ++
        [{ id := 3, title := "C", description := "", owner := 1,
           createdAt := 5, is_active := true, color := "#c" }]) ∧
    page_edit ⟨[⟨1, "A", "", 1, 0, true, "#c"⟩, ⟨2, "B", "", 1, 0, false, "#c"⟩],
               [], 3, 1⟩ 1 1 "B" "" "#c" = .error .DuplicateTitle ∧
    (page_edit ⟨[⟨1, "A", "", 1, 0, true, "#c"⟩, ⟨2, "B", "", 1, 0, false, "#c"⟩],
                [], 3, 1⟩ 1 1 "C" "" "#c").isOk = true :=
  page_title_uniqueness
    ⟨[⟨1, "A", "", 1, 0, true, "#c"⟩, ⟨2, "B", "", 1, 0, false, "#c"⟩], [], 3, 1⟩
    1 1 5 "B" "C" "" "#c"
    (by decide) (by decide) (by decide) (by decide) (by decide) (by decide)

/-- C5: after a successful soft delete of page `pid`: the todo table is
untouched; no page row is removed (the count is preserved); every page
row other than `pid` is unchanged; the row of `pid` is kept with only its
`is_active` flag flipped to false and every other field unchanged; every
surviving row with id `pid` is inactive; the page no longer appears in
the owner's page list; and the detail lookup for it fails with
`NotFound` (for its owner and for everyone else). -/
theorem page_soft_delete_frame (db db' : DB) (o pid now : Nat) (fs fp sq : String)
    (h : page_delete db o pid = .ok db') :
    db'.todos = db.todos ∧
    db'.pages.length = db.pages.length ∧
    (∀ p ∈ db.pages, p.id ≠ pid → p ∈ db'.pages) ∧
    (∀ p ∈ db.pages, p.id = pid → { p with is_active := false } ∈ db'.pages) ∧
    (∀ p ∈ db'.pages, p.id = pid → p.is_active = false) ∧
    (∀ q ∈ page_list db' o, q.id ≠ pid) ∧
    (∀ o' : Nat, page_detail db' o' pid now fs fp sq = .error .NotFound) := by
  cases hgp : getPageActive db o pid with
  | none => simp [page_delete, hgp] at h
  | some p =>
    simp only [page_delete, hgp, Except.ok.injEq] at h
    subst h
    have hinactive : ∀ q ∈ (db.pages.map (fun q =>
        if q.id == pid then { q with is_active := false } else q)),
        q.id = pid → q.is_active = false := by
      intro q hq hid
      simp only [List.mem_map] at hq
      obtain ⟨v, hv, hvq⟩ := hq
      by_cases hvid : v.id == pid
      · rw [if_pos hvid] at hvq; rw [← hvq]
      · rw [if_neg hvid] at hvq; subst hvq; exact absurd hid (by simpa using hvid)
    refine ⟨rfl, by simp, ?_, ?_, hinactive, ?_, ?_⟩
    · intro q hq hid
      exact List.mem_map.mpr ⟨q, hq, by simp [hid]⟩
    · intro q hq hid
      exact List.mem_map.mpr ⟨q, hq, by simp [hid]⟩
    · intro q hq hid
      unfold page_list at hq
      have hq' := List.mem_filter.mp hq
      have hact : q.is_active = true := by
        have h2 := hq'.2
        simp only [Bool.and_eq_true] at h2
        exact h2.2
      exact absurd (hinactive q hq'.1 hid) (by simp [hact])
    · intro o'
      have hnone : getPageActive
          { db with pages := db.pages.map (fun q =>
              if q.id == pid then { q with is_active := false } else q) } o' pid
          = none := by
        rw [getPageActive, List.find?_eq_none]
        intro q hq hpred
        simp only [Bool.and_eq_true, beq_iff_eq] at hpred
        exact absurd (hinactive q hq hpred.1.1) (by simp [hpred.2])
      unfold page_detail
      rw [hnone]

/-- Witness for C5: soft-deleting the single active page of owner 1,
which holds one todo. -/
theorem page_soft_delete_frame_witness :
    (⟨[⟨1, "P", "", 1, 0, false, "#c"⟩],
      [⟨1, "T", "", false, "medium", 1, 0, none, none, 0⟩], 2, 2⟩ : DB).todos
      = (⟨[⟨1, "P", "", 1, 0, true, "#c"⟩],
          [⟨1, "T", "", false, "medium", 1, 0, none, none, 0⟩], 2, 2⟩ : DB).todos ∧
    (⟨[⟨1, "P", "", 1, 0, false, "#c"⟩],
      [⟨1, "T", "", false, "medium", 1, 0, none, none, 0⟩], 2, 2⟩ : DB).pages.length
      = (⟨[⟨1, "P", "", 1, 0, true, "#c"⟩],
          [⟨1, "T", "", false, "medium", 1, 0, none, none, 0⟩], 2, 2⟩ : DB).pages.length ∧
    (∀ p ∈ (⟨[⟨1, "P", "", 1, 0, true, "#c"⟩],
             [⟨1, "T", "", false, "medium", 1, 0, none, none, 0⟩], 2, 2⟩ : DB).pages,
       p.id ≠ 1 →
       p ∈ (⟨[⟨1, "P", "", 1, 0, false, "#c"⟩],
             [⟨1, "T", "", false, "medium", 1, 0, none, none, 0⟩], 2, 2⟩ : DB).pages) ∧
    (∀ p ∈ (⟨[⟨1, "P", "", 1, 0, true, "#c"⟩],
             [⟨1, "T", "", false, "medium", 1, 0, none, none, 0⟩], 2, 2⟩ : DB).pages,
       p.id = 1 →
       { p with is_active := false } ∈
         (⟨[⟨1, "P", "", 1, 0, false, "#c"⟩],
           [⟨1, "T", "", false, "medium", 1, 0, none, none, 0⟩], 2, 2⟩ : DB).pages) ∧
    (∀ p ∈ (⟨[⟨1, "P", "", 1, 0, false, "#c"⟩],
             [⟨1, "T", "", false, "medium", 1, 0, none, none, 0⟩], 2, 2⟩ : DB).pages,
       p.id = 1 → p.is_active = false) ∧
    (∀ q ∈ page_list ⟨[⟨1, "P", "", 1, 0, false, "#c"⟩],
                      [⟨1, "T", "", false, "medium", 1, 0, none, none, 0⟩], 2, 2⟩ 1,
       q.id ≠ 1) ∧
    (∀ o' : Nat,
       page_detail ⟨[⟨1, "P", "", 1, 0, false, "#c"⟩],
                    [⟨1, "T", "", false, "medium", 1, 0, none, none, 0⟩], 2, 2⟩
         o' 1 5 "all" "all" "" = .error .NotFound) :=
  page_soft_delete_frame
    ⟨[⟨1, "P", "", 1, 0, true, "#c"⟩],
     [⟨1, "T", "", false, "medium", 1, 0, none, none, 0⟩], 2, 2⟩
    ⟨[⟨1, "P", "", 1, 0, false, "#c"⟩],
     [⟨1, "T", "", false, "medium", 1, 0, none, none, 0⟩], 2, 2⟩
    1 1 5 "all" "all" "" rfl

/-- C7: for an existing todo (unique ids assumed for it and its page),
the todo mutations fail with `NotFound` exactly when the parent page is
not owned by the caller: if the owner differs, edit, delete and toggle
all return `NotFound`; if the parent page belongs to the caller they all
succeed — with no condition whatsoever on the page's `is_active` flag,
so a todo under an inactive (soft-deleted) page is still found and
mutable by its owner. -/
theorem todo_ops_owner_scoped (db : DB) (o tid now : Nat)
    (title descr prio : String) (due : Option Nat)
    (t : Todo) (ht : t ∈ db.todos) (hid : t.id = tid)
    (hut : ∀ u ∈ db.todos, u.id = tid → u = t)
    (p : Page) (hp : p ∈ db.pages) (hpid : p.id = t.pageId)
    (hup : ∀ q ∈ db.pages, q.id = t.pageId → q = p)
    (htitle : title ≠ "") :
    (p.owner ≠ o →
      todo_edit db o tid now title descr prio due = .error .NotFound ∧
      todo_delete db o tid = .error .NotFound ∧
      todo_toggle db o tid now = .error .NotFound) ∧
    (p.owner = o →
      (todo_edit db o tid now title descr prio due).isOk = true ∧
      (todo_delete db o tid).isOk = true ∧
      (todo_toggle db o tid now).isOk = true) := by
  have hfp : db.pages.find? (fun q => q.id == t.pageId) = some p := by
    cases hfq : db.pages.find? (fun q => q.id == t.pageId) with
    | none =>
      rw [List.find?_eq_none] at hfq
      exact absurd (by simp [hpid]) (hfq p hp)
    | some q =>
      have h1 := List.find?_some hfq
      have h2 := List.mem_of_find?_eq_some hfq
      rw [hup q h2 (by simpa using h1)]
  constructor
  · intro hne
    have hgt : getTodoOwned db o tid = none := by
      rw [getTodoOwned, List.find?_eq_none]
      intro u hu hpred
      simp only [Bool.and_eq_true, beq_iff_eq] at hpred
      have hu_t : u = t := hut u hu hpred.1
      subst hu_t
      rw [hfp] at hpred
      simp only [Option.any_some, beq_iff_eq] at hpred
      exact hne hpred.2
    exact ⟨by simp [todo_edit, hgt], by simp [todo_delete, hgt],
           by simp [todo_toggle, hgt]⟩
  · intro howner
    have hsome : ∃ u, getTodoOwned db o tid = some u := by
      rw [← Option.isSome_iff_exists, getTodoOwned, List.find?_isSome]
      exact ⟨t, ht, by simp [hid, hfp, howner]⟩
    obtain ⟨u, hu⟩ := hsome
    exact ⟨by simp [todo_edit, hu, htitle, Except.isOk, Except.toBool],
           by simp [todo_delete, hu, Except.isOk, Except.toBool],
           by simp [todo_toggle, hu, Except.isOk, Except.toBool]⟩

/-- Witness for C7: owner 1's only page is INACTIVE (soft-deleted), yet
the todo under it is still found: edit, delete and toggle all succeed
for the owner (the ownership-mismatch branch is vacuous here). -/
theorem todo_ops_owner_scoped_witness :
    ((1 : Nat) ≠ 1 →
      todo_edit ⟨[⟨1, "P", "", 1, 0, false, "#c"⟩],
                 [⟨1, "T", "", false, "medium", 1, 0, none, none, 0⟩], 2, 2⟩
        1 1 5 "X" "" "medium" none = .error .NotFound ∧
      todo_delete ⟨[⟨1, "P", "", 1, 0, false, "#c"⟩],
                   [⟨1, "T", "", false, "medium", 1, 0, none, none, 0⟩], 2, 2⟩
        1 1 = .error .NotFound ∧
      todo_toggle ⟨[⟨1, "P", "", 1, 0, false, "#c"⟩],
                   [⟨1, "T", "", false, "medium", 1, 0, none, none, 0⟩], 2, 2⟩
        1 1 5 = .error .NotFound) ∧
    ((1 : Nat) = 1 →
      (todo_edit ⟨[⟨1, "P", "", 1, 0, false, "#c"⟩],
                  [⟨1, "T", "", false, "medium", 1, 0, none, none, 0⟩], 2, 2⟩
        1 1 5 "X" "" "medium" none).isOk = true ∧
      (todo_delete ⟨[⟨1, "P", "", 1, 0, false, "#c"⟩],
                    [⟨1, "T", "", false, "medium", 1, 0, none, none, 0⟩], 2, 2⟩
        1 1).isOk = true ∧
      (todo_toggle ⟨[⟨1, "P", "", 1, 0, false, "#c"⟩],
                    [⟨1, "T", "", false, "medium", 1, 0, none, none, 0⟩], 2, 2⟩
        1 1 5).isOk = true) :=
  todo_ops_owner_scoped
    ⟨[⟨1, "P", "", 1, 0, false, "#c"⟩],
     [⟨1, "T", "", false, "medium", 1, 0, none, none, 0⟩], 2, 2⟩
    1 1 5 "X" "" "medium" none
    ⟨1, "T", "", false, "medium", 1, 0, none, none, 0⟩ (by decide) rfl (by decide)
    ⟨1, "P", "", 1, 0, false, "#c"⟩ (by decide) rfl (by decide) (by decide)

/-- C8: searching with the empty query returns empty result sets
whatever the store holds; with a non-empty query the result carries at
most 10 pages — each active, owned by the caller, and matching the query
case-insensitively in the title — and at most 20 todos — each under a
page owned by the caller (no activity condition) and matching the query
case-insensitively in the title — the two lists truncated
independently. -/
theorem search_view_spec (db : DB) (o : Nat) (q : String) (hq : q ≠ "") :
    search_view db o "" = { pages := [], todos := [] } ∧
    (search_view db o q).pages.length ≤ 10 ∧
    (search_view db o q).todos.length ≤ 20 ∧
    (∀ p ∈ (search_view db o q).pages,
      p ∈ db.pages ∧ p.owner = o ∧ p.is_active = true ∧ icontains p.title q = true) ∧
    (∀ t ∈ (search_view db o q).todos,
      t ∈ db.todos ∧ icontains t.title q = true ∧
      ∃ p ∈ db.pages, p.id = t.pageId ∧ p.owner = o) := by
  have hpg : (search_view db o q).pages =
      (db.pages.filter (fun p =>
        p.owner == o && p.is_active && icontains p.title q)).take 10 := by
    rw [search_view, if_neg hq]
  have htd : (search_view db o q).todos =
      (db.todos.filter (fun t =>
        ((db.pages.find? (fun p => p.id == t.pageId)).any (fun p => p.owner == o))
        && icontains t.title q)).take 20 := by
    rw [search_view, if_neg hq]
  refine ⟨by rw [search_view, if_pos rfl], ?_, ?_, ?_, ?_⟩
  · rw [hpg]; exact List.length_take_le _ _
  · rw [htd]; exact List.length_take_le _ _
  · intro p hp
    rw [hpg] at hp
    have hp' := List.mem_filter.mp (List.mem_of_mem_take hp)
    have hpred := hp'.2
    simp only [Bool.and_eq_true, beq_iff_eq] at hpred
    exact ⟨hp'.1, hpred.1.1, hpred.1.2, hpred.2⟩
  · intro t ht
    rw [htd] at ht
    have ht' := List.mem_filter.mp (List.mem_of_mem_take ht)
    have hpred := ht'.2
    simp only [Bool.and_eq_true] at hpred
    refine ⟨ht'.1, hpred.2, ?_⟩
    obtain ⟨hany, -⟩ := hpred
    cases hfp : (db.pages.find? (fun p => p.id == t.pageId)) with
    | none => rw [hfp] at hany; simp at hany
    | some p =>
      rw [hfp] at hany
      simp only [Option.any_some, beq_iff_eq] at hany
      exact ⟨p, List.mem_of_find?_eq_some hfp,
             by simpa using List.find?_some hfp, hany⟩

/-- Witness for C8 on a concrete store: owner 1 has an active page
"Groceries" with the todo "Buy milk" and an inactive page "Old list"
with the todo "milky way"; the query "milk" finds both todos (the page
of the second being inactive does not exclude it) and no page, and the
empty query finds nothing. -/
theorem search_view_spec_witness :
    search_view ⟨[⟨1, "Groceries", "", 1, 0, true, "#c"⟩,
                  ⟨2, "Old list", "", 1, 0, false, "#c"⟩],
                 [⟨1, "Buy milk", "", false, "medium", 1, 0, none, none, 0⟩,
                  ⟨2, "milky way", "", false, "medium", 2, 0, none, none, 0⟩], 3, 3⟩
      1 "" = { pages := [], todos := [] } ∧
    (search_view ⟨[⟨1, "Groceries", "", 1, 0, true, "#c"⟩,
                   ⟨2, "Old list", "", 1, 0, false, "#c"⟩],
                  [⟨1, "Buy milk", "", false, "medium", 1, 0, none, none, 0⟩,
                   ⟨2, "milky way", "", false, "medium", 2, 0, none, none, 0⟩], 3, 3⟩
      1 "milk").pages.length ≤ 10 ∧
    (search_view ⟨[⟨1, "Groceries", "", 1, 0, true, "#c"⟩,
                   ⟨2, "Old list", "", 1, 0, false, "#c"⟩],
                  [⟨1, "Buy milk", "", false, "medium", 1, 0, none, none, 0⟩,
                   ⟨2, "milky way", "", false, "medium", 2, 0, none, none, 0⟩], 3, 3⟩
      1 "milk").todos.length ≤ 20 ∧
    (∀ p ∈ (search_view ⟨[⟨1, "Groceries", "", 1, 0, true, "#c"⟩,
                          ⟨2, "Old list", "", 1, 0, false, "#c"⟩],
                         [⟨1, "Buy milk", "", false, "medium", 1, 0, none, none, 0⟩,
                          ⟨2, "milky way", "", false, "medium", 2, 0, none, none, 0⟩],
                         3, 3⟩ 1 "milk").pages,
      p ∈ [⟨1, "Groceries", "", 1, 0, true, "#c"⟩,
           (⟨2, "Old list", "", 1, 0, false, "#c"⟩ : Page)] ∧ p.owner = 1 ∧
        p.is_active = true ∧ icontains p.title "milk" = true) ∧
    (∀ t ∈ (search_view ⟨[⟨1, "Groceries", "", 1, 0, true, "#c"⟩,
                          ⟨2, "Old list", "", 1, 0, false, "#c"⟩],
                         [⟨1, "Buy milk", "", false, "medium", 1, 0, none, none, 0⟩,
                          ⟨2, "milky way", "", false, "medium", 2, 0, none, none, 0⟩],
                         3, 3⟩ 1 "milk").todos,
      t ∈ [⟨1, "Buy milk", "", false, "medium", 1, 0, none, none, 0⟩,
           (⟨2, "milky way", "", false, "medium", 2, 0, none, none, 0⟩ : Todo)] ∧
        icontains t.title "milk" = true ∧
        ∃ p ∈ [⟨1, "Groceries", "", 1, 0, true, "#c"⟩,
               (⟨2, "Old list", "", 1, 0, false, "#c"⟩ : Page)],
          p.id = t.pageId ∧ p.owner = 1) :=
  search_view_spec
    ⟨[⟨1, "Groceries", "", 1, 0, true, "#c"⟩,
      ⟨2, "Old list", "", 1, 0, false, "#c"⟩],
     [⟨1, "Buy milk", "", false, "medium", 1, 0, none, none, 0⟩,
      ⟨2, "milky way", "", false, "medium", 2, 0, none, none, 0⟩], 3, 3⟩
    1 "milk" (by decide)

/-- Replacing every row with the looked-up id by a replacement that
itself satisfies the lookup predicate makes the lookup return the
replacement.  (The predicate must force the id, which every id-scoped
lookup does.) -/
theorem find?_map_replace (l : List Todo) (pr : Todo → Bool) (tid : Nat) (t2 : Todo)
    (hpred2 : pr t2 = true)
    (hpred_id : ∀ u, pr u = true → u.id = tid)
    (hex : ∃ u ∈ l, pr u = true) :
    (l.map (fun u => if u.id == tid then t2 else u)).find? pr = some t2 := by
  induction l with
  | nil => simp at hex
  | cons a l ih =>
    by_cases ha : a.id = tid
    · simp only [List.map_cons, if_pos (show (a.id == tid) = true by simpa using ha)]
      exact List.find?_cons_of_pos _ hpred2
    · have hpa : pr a = false := by
        cases hpab : pr a
        · rfl
        · exact absurd (hpred_id a hpab) ha
      simp only [List.map_cons, if_neg (show ¬(a.id == tid) = true by simpa using ha)]
      rw [List.find?_cons_of_neg _ (by simp [hpa])]
      apply ih
      obtain ⟨u, hu, hpu⟩ := hex
      rcases List.mem_cons.mp hu with rfl | hu'
      · rw [hpu] at hpa; cases hpa
      · exact ⟨u, hu', hpu⟩

/-- After an id-scoped todo write (replacing the rows with id `tid` by a
row that keeps the id and the page), the same lookup finds the written
row. -/
theorem getTodoOwned_replace (db : DB) (o tid : Nat) (t t2 : Todo)
    (hfind : getTodoOwned db o tid = some t)
    (hid2 : t2.id = tid) (hpg2 : t2.pageId = t.pageId) :
    getTodoOwned
      { db with todos := db.todos.map (fun u => if u.id == tid then t2 else u) }
      o tid = some t2 := by
  have hpredt := List.find?_some hfind
  have hmem := List.mem_of_find?_eq_some hfind
  apply find?_map_replace
  · simp only [Bool.and_eq_true, beq_iff_eq] at hpredt ⊢
    refine ⟨hid2, ?_⟩
    rw [hpg2]
    exact hpredt.2
  · intro u hu
    simp only [Bool.and_eq_true, beq_iff_eq] at hu
    exact hu.1
  · exact ⟨t, hmem, hpredt⟩

/-- Counterexample to C4 as stated: a todo that is already complete
(completed_at = 3).  Toggling twice does restore completed = true, but
the second toggle re-stamps completed_at with the current time (9); it
is NOT left null, contrary to the claim's "toggling twice ... leaves
completed_at null". -/
theorem todo_toggle_twice_cex :
    todo_toggle ⟨[⟨1, "P", "", 1, 0, true, "#c"⟩],
                 [⟨1, "T", "", true, "medium", 1, 0, none, some 3, 0⟩], 2, 2⟩ 1 1 7
      = .ok (⟨[⟨1, "P", "", 1, 0, true, "#c"⟩],
              [⟨1, "T", "", false, "medium", 1, 0, none, none, 0⟩], 2, 2⟩, false) ∧
    todo_toggle ⟨[⟨1, "P", "", 1, 0, true, "#c"⟩],
                 [⟨1, "T", "", false, "medium", 1, 0, none, none, 0⟩], 2, 2⟩ 1 1 9
      = .ok (⟨[⟨1, "P", "", 1, 0, true, "#c"⟩],
              [⟨1, "T", "", true, "medium", 1, 0, none, some 9, 0⟩], 2, 2⟩, true) ∧
    (⟨1, "T", "", true, "medium", 1, 0, none, some 9, 0⟩ : Todo).completed_at ≠ none :=
  ⟨rfl, rfl, by decide⟩

/-- C4 (amended): toggling an incomplete todo sets completed_at to a
non-null timestamp and returns completed = true; toggling a complete
todo clears completed_at to null and returns completed = false; toggling
twice restores the original completed value, and completed_at ends null
when the todo was originally incomplete but is re-stamped to the time of
the second toggle (non-null) when it was originally complete. -/
theorem todo_toggle_behaviour (db : DB) (o tid now now2 : Nat) (t : Todo)
    (hfind : getTodoOwned db o tid = some t)
    (hinv : t.completed_at.isSome = t.completed) :
    ∃ db1, todo_toggle db o tid now = .ok (db1, !t.completed) ∧
      (t.completed = false →
        ∀ u ∈ db1.todos, u.id = tid → u.completed = true ∧ u.completed_at = some now) ∧
      (t.completed = true →
        ∀ u ∈ db1.todos, u.id = tid → u.completed = false ∧ u.completed_at = none) ∧
      ∃ db2, todo_toggle db1 o tid now2 = .ok (db2, t.completed) ∧
        ∀ u ∈ db2.todos, u.id = tid →
          u.completed = t.completed ∧
          (t.completed = false → u.completed_at = none) ∧
          (t.completed = true → u.completed_at = some now2) := by
  have htid : t.id = tid := by
    have h := List.find?_some hfind
    simp only [Bool.and_eq_true, beq_iff_eq] at h
    exact h.1
  cases hc : t.completed with
  | false =>
    have hca : t.completed_at = none := by
      cases hcab : t.completed_at
      · rfl
      · rw [hcab, hc] at hinv; simp at hinv
    refine ⟨{ db with todos := db.todos.map (fun u =>
        if u.id == tid then { t with completed := true, completed_at := some now }
        else u) }, ?_, ?_, ?_, ?_⟩
    · simp [todo_toggle, hfind, todoSave, hc, hca]
    · intro _ u hu hid
      simp only [List.mem_map] at hu
      obtain ⟨v, hv, hvu⟩ := hu
      by_cases hvid : v.id == tid
      · rw [if_pos hvid] at hvu; rw [← hvu]; exact ⟨rfl, rfl⟩
      · rw [if_neg hvid] at hvu; subst hvu; exact absurd hid (by simpa using hvid)
    · intro h; simp at h
    · have hfind2 : getTodoOwned { db with todos := db.todos.map (fun u =>
          if u.id == tid then { t with completed := true, completed_at := some now }
          else u) } o tid = some { t with completed := true, completed_at := some now } :=
        getTodoOwned_replace db o tid t _ hfind (by simpa using htid) rfl
      refine ⟨{ db with todos := (List.map (fun u =>
          if u.id == tid then { t with completed := false, completed_at := none }
          else u) (List.map (fun u =>
          if u.id == tid then { t with completed := true, completed_at := some now }
          else u) db.todos)) }, ?_, ?_⟩
      · unfold todo_toggle
        rw [hfind2]
        simp [todoSave]
      · intro u hu hid
        simp only [List.mem_map] at hu
        obtain ⟨v, hv, hvu⟩ := hu
        by_cases hvid : v.id == tid
        · rw [if_pos hvid] at hvu
          rw [← hvu]
          exact ⟨rfl, fun _ => rfl, fun h => by simp at h⟩
        · rw [if_neg hvid] at hvu; subst hvu; exact absurd hid (by simpa using hvid)
  | true =>
    refine ⟨{ db with todos := db.todos.map (fun u =>
        if u.id == tid then { t with completed := false, completed_at := none }
        else u) }, ?_, ?_, ?_, ?_⟩
    · simp [todo_toggle, hfind, todoSave, hc]
    · intro h; simp at h
    · intro _ u hu hid
      simp only [List.mem_map] at hu
      obtain ⟨v, hv, hvu⟩ := hu
      by_cases hvid : v.id == tid
      · rw [if_pos hvid] at hvu; rw [← hvu]; exact ⟨rfl, rfl⟩
      · rw [if_neg hvid] at hvu; subst hvu; exact absurd hid (by simpa using hvid)
    · have hfind2 : getTodoOwned { db with todos := db.todos.map (fun u =>
          if u.id == tid then { t with completed := false, completed_at := none }
          else u) } o tid = some { t with completed := false, completed_at := none } :=
        getTodoOwned_replace db o tid t _ hfind (by simpa using htid) rfl
      refine ⟨{ db with todos := (List.map (fun u =>
          if u.id == tid then { t with completed := true, completed_at := some now2 }
          else u) (List.map (fun u =>
          if u.id == tid then { t with completed := false, completed_at := none }
          else u) db.todos)) }, ?_, ?_⟩
      · unfold todo_toggle
        rw [hfind2]
        simp [todoSave]
      · intro u hu hid
        simp only [List.mem_map] at hu
        obtain ⟨v, hv, hvu⟩ := hu
        by_cases hvid : v.id == tid
        · rw [if_pos hvid] at hvu
          rw [← hvu]
          exact ⟨rfl, fun h => by simp at h, fun _ => rfl⟩
        · rw [if_neg hvid] at hvu; subst hvu; exact absurd hid (by simpa using hvid)

/-- Witness for C4 (amended) at a concrete store: a pending todo toggled
at time 7 and again at time 9 — completed_at becomes 7, then null. -/
theorem todo_toggle_behaviour_witness :
    ∃ db1,
      todo_toggle ⟨[⟨1, "P", "", 1, 0, true, "#c"⟩],
          [⟨1, "T", "", false, "medium", 1, 0, none, none, 0⟩], 2, 2⟩ 1 1 7
        = .ok (db1, !false) ∧
      ((false : Bool) = false →
        ∀ u ∈ db1.todos, u.id = 1 → u.completed = true ∧ u.completed_at = some 7) ∧
      ((false : Bool) = true →
        ∀ u ∈ db1.todos, u.id = 1 → u.completed = false ∧ u.completed_at = none) ∧
      ∃ db2, todo_toggle db1 1 1 9 = .ok (db2, false) ∧
        ∀ u ∈ db2.todos, u.id = 1 →
          u.completed = false ∧
          ((false : Bool) = false → u.completed_at = none) ∧
          ((false : Bool) = true → u.completed_at = some 9) :=
  todo_toggle_behaviour
    ⟨[⟨1, "P", "", 1, 0, true, "#c"⟩],
     [⟨1, "T", "", false, "medium", 1, 0, none, none, 0⟩], 2, 2⟩
    1 1 7 9 ⟨1, "T", "", false, "medium", 1, 0, none, none, 0⟩ rfl rfl

/-- Counterexample to C6 as stated: owner 1's page (id 1) is already
soft-deleted (is_active = false), yet the todo under it is NOT
unreachable: toggling it succeeds, and the global search still returns
it. -/
theorem soft_deleted_todos_reachable_cex :
    (todo_toggle ⟨[⟨1, "P", "", 1, 0, false, "#c"⟩],
        [⟨1, "Task", "", false, "medium", 1, 0, none, none, 0⟩], 2, 2⟩ 1 1 5).isOk
      = true ∧
    (search_view ⟨[⟨1, "P", "", 1, 0, false, "#c"⟩],
        [⟨1, "Task", "", false, "medium", 1, 0, none, none, 0⟩], 2, 2⟩ 1 "task").todos
      = [⟨1, "Task", "", false, "medium", 1, 0, none, none, 0⟩] := by
  exact ⟨rfl, by decide⟩

/-- C6 (amended): once a page is soft-deleted it is itself permanently
unreachable through the service surface — it is omitted from the page
list and from search's page results, and page detail, page edit, page
delete and todo creation under it all fail with `NotFound`, for every
caller.  Its todos, however, do NOT become inaccessible: the owner can
still toggle (and likewise edit or delete) them, and they keep appearing
in search, because the todo lookups never check the parent page's
`is_active` flag. -/
theorem soft_deleted_page_inaccessible (db : DB) (o' pid now : Nat)
    (title descr color prio fs fp sq q : String) (due : Option Nat)
    (hinactive : ∀ p ∈ db.pages, p.id = pid → p.is_active = false) :
    (∀ p ∈ page_list db o', p.id ≠ pid) ∧
    page_detail db o' pid now fs fp sq = .error .NotFound ∧
    page_edit db o' pid title descr color = .error .NotFound ∧
    page_delete db o' pid = .error .NotFound ∧
    todo_create db o' pid now title descr prio due = .error .NotFound ∧
    (∀ p ∈ (search_view db o' q).pages, p.id ≠ pid) ∧
    (∀ t ∈ db.todos, t.pageId = pid →
      (∀ p ∈ db.pages, p.id = pid → p.owner = o') →
      (∃ p ∈ db.pages, p.id = pid) →
      (todo_toggle db o' t.id now).isOk = true) := by
  have hgp : getPageActive db o' pid = none := by
    rw [getPageActive, List.find?_eq_none]
    intro p hp hpred
    simp only [Bool.and_eq_true, beq_iff_eq] at hpred
    exact absurd (hinactive p hp hpred.1.1) (by simp [hpred.2])
  refine ⟨?_, by simp [page_detail, hgp], by simp [page_edit, hgp],
          by simp [page_delete, hgp], by simp [todo_create, hgp], ?_, ?_⟩
  · intro p hp hid
    unfold page_list at hp
    have hp' := List.mem_filter.mp hp
    have h2 := hp'.2
    simp only [Bool.and_eq_true] at h2
    exact absurd (hinactive p hp'.1 hid) (by simp [h2.2])
  · intro p hp hid
    by_cases hq : q = ""
    · rw [search_view, if_pos hq] at hp
      simp at hp
    · have hpg : (search_view db o' q).pages =
          (db.pages.filter (fun p =>
            p.owner == o' && p.is_active && icontains p.title q)).take 10 := by
        rw [search_view, if_neg hq]
      rw [hpg] at hp
      have hp' := List.mem_filter.mp (List.mem_of_mem_take hp)
      have h2 := hp'.2
      simp only [Bool.and_eq_true] at h2
      exact absurd (hinactive p hp'.1 hid) (by simp [h2.1.2])
  · intro t ht hpg hown hex
    have hfp : ∃ p, db.pages.find? (fun p => p.id == t.pageId) = some p ∧ p.owner = o' := by
      obtain ⟨p0, hp0, hp0id⟩ := hex
      have hs : (db.pages.find? (fun p => p.id == t.pageId)).isSome := by
        rw [List.find?_isSome]
        exact ⟨p0, hp0, by simp [hp0id, hpg]⟩
      cases hfq : db.pages.find? (fun p => p.id == t.pageId) with
      | none => rw [hfq] at hs; simp at hs
      | some p1 =>
        refine ⟨p1, rfl, ?_⟩
        have h1 := List.find?_some hfq
        have h2 := List.mem_of_find?_eq_some hfq
        simp only [beq_iff_eq] at h1
        exact hown p1 h2 (by rw [h1]; exact hpg)
    obtain ⟨p1, hfp1, hp1o⟩ := hfp
    have hsome : ∃ u, getTodoOwned db o' t.id = some u := by
      rw [← Option.isSome_iff_exists, getTodoOwned, List.find?_isSome]
      exact ⟨t, ht, by simp [hfp1, hp1o]⟩
    obtain ⟨u, hu⟩ := hsome
    simp [todo_toggle, hu, Except.isOk, Except.toBool]

/-- Witness for C6 (amended): concrete store with an inactive page (id
1) of owner 1 and a todo under it; all page-surface operations fail,
search omits the page, and the todo stays toggleable. -/
theorem soft_deleted_page_inaccessible_witness :
    (∀ p ∈ page_list ⟨[⟨1, "P", "", 1, 0, false, "#c"⟩],
        [⟨1, "Task", "", false, "medium", 1, 0, none, none, 0⟩], 2, 2⟩ 1, p.id ≠ 1) ∧
    page_detail ⟨[⟨1, "P", "", 1, 0, false, "#c"⟩],
        [⟨1, "Task", "", false, "medium", 1, 0, none, none, 0⟩], 2, 2⟩ 1 1 5 "all" "all" ""
      = .error .NotFound ∧
    page_edit ⟨[⟨1, "P", "", 1, 0, false, "#c"⟩],
        [⟨1, "Task", "", false, "medium", 1, 0, none, none, 0⟩], 2, 2⟩ 1 1 "X" "" "#c"
      = .error .NotFound ∧
    page_delete ⟨[⟨1, "P", "", 1, 0, false, "#c"⟩],
        [⟨1, "Task", "", false, "medium", 1, 0, none, none, 0⟩], 2, 2⟩ 1 1
      = .error .NotFound ∧
    todo_create ⟨[⟨1, "P", "", 1, 0, false, "#c"⟩],
        [⟨1, "Task", "", false, "medium", 1, 0, none, none, 0⟩], 2, 2⟩ 1 1 5 "X" "" "medium" none
      = .error .NotFound ∧
    (∀ p ∈ (search_view ⟨[⟨1, "P", "", 1, 0, false, "#c"⟩],
        [⟨1, "Task", "", false, "medium", 1, 0, none, none, 0⟩], 2, 2⟩ 1 "P").pages,
      p.id ≠ 1) ∧
    (∀ t ∈ (⟨[⟨1, "P", "", 1, 0, false, "#c"⟩],
        [⟨1, "Task", "", false, "medium", 1, 0, none, none, 0⟩], 2, 2⟩ : DB).todos,
      t.pageId = 1 →
      (∀ p ∈ (⟨[⟨1, "P", "", 1, 0, false, "#c"⟩],
          [⟨1, "Task", "", false, "medium", 1, 0, none, none, 0⟩], 2, 2⟩ : DB).pages,
        p.id = 1 → p.owner = 1) →
      (∃ p ∈ (⟨[⟨1, "P", "", 1, 0, false, "#c"⟩],
          [⟨1, "Task", "", false, "medium", 1, 0, none, none, 0⟩], 2, 2⟩ : DB).pages,
        p.id = 1) →
      (todo_toggle ⟨[⟨1, "P", "", 1, 0, false, "#c"⟩],
          [⟨1, "Task", "", false, "medium", 1, 0, none, none, 0⟩], 2, 2⟩ 1 t.id 5).isOk
        = true) :=
  soft_deleted_page_inaccessible
    ⟨[⟨1, "P", "", 1, 0, false, "#c"⟩],
     [⟨1, "Task", "", false, "medium", 1, 0, none, none, 0⟩], 2, 2⟩
    1 1 5 "X" "" "#c" "medium" "all" "all" "" "P" none (by decide)

/-- Flipping the active flag of the (unique) page row `pp` removes
exactly one element from the active-owned count. -/
theorem length_filter_map_flip (pid o : Nat) (pp : Page)
    (hid : pp.id = pid) (hact : pp.is_active = true) (hown : pp.owner = o) :
    ∀ l : List Page, pp ∈ l → (l.map Page.id).Nodup →
    ((l.map (fun q => if q.id == pid then { q with is_active := false } else q)).filter
        (fun p => p.owner == o && p.is_active)).length + 1
      = (l.filter (fun p => p.owner == o && p.is_active)).length := by
  intro l
  induction l with
  | nil => intro h _; cases h
  | cons a l ih =>
    intro hmem hn
    simp only [List.map_cons, List.nodup_cons] at hn
    rcases List.mem_cons.mp hmem with rfl | hmem'
    · have hmapid : l.map (fun q =>
          if q.id == pid then { q with is_active := false } else q) = l := by
        have hcong : ∀ q ∈ l,
            (if q.id == pid then { q with is_active := false } else q) = id q := by
          intro q hq
          have hqne : ¬(q.id == pid) = true := by
            simp only [beq_iff_eq]
            intro hqid
            exact hn.1 (List.mem_map.mpr ⟨q, hq, by rw [hqid, hid]⟩)
          rw [if_neg hqne]
          rfl
        rw [List.map_congr_left hcong, List.map_id]
      rw [List.map_cons, if_pos (by simpa using hid), hmapid]
      simp [List.filter_cons, hown, hact]
    · have haid : ¬(a.id == pid) = true := by
        simp only [beq_iff_eq]
        intro h
        exact hn.1 (List.mem_map.mpr ⟨pp, hmem', by rw [hid, h]⟩)
      rw [List.map_cons, if_neg haid]
      simp only [List.filter_cons]
      by_cases hpa : (a.owner == o && a.is_active) = true
      · simp only [if_pos hpa, List.length_cons]
        have h := ih hmem' hn.2
        omega
      · simp only [if_neg hpa]
        exact ih hmem' hn.2

/-- C10: the user-level aggregates are inconsistently scoped with
respect to soft deletion.  After a successful soft delete of page `pid`
(page ids assumed unique, as primary keys are): the total-todos and
completed-todos aggregates are completely unchanged — they keep counting
the todos of the now-inactive page — while the total-pages aggregate
drops by exactly one; the deleted page no longer appears in the page
list, yet every todo under any page of the owner (the deleted one
included) is still among the rows counted by the todo aggregates. -/
theorem aggregate_scoping (db db' : DB) (o pid : Nat)
    (hn : (db.pages.map Page.id).Nodup)
    (hdel : page_delete db o pid = .ok db') :
    get_total_todos db' o = get_total_todos db o ∧
    get_completed_todos db' o = get_completed_todos db o ∧
    get_total_pages db' o + 1 = get_total_pages db o ∧
    (∀ p ∈ page_list db' o, p.id ≠ pid) ∧
    (∀ t ∈ db.todos, (∃ p ∈ db.pages, p.id = t.pageId ∧ p.owner = o) →
      t ∈ userTodos db' o) := by
  cases hgp : getPageActive db o pid with
  | none => simp [page_delete, hgp] at hdel
  | some pp =>
    have hppmem := List.mem_of_find?_eq_some hgp
    have hpppred := List.find?_some hgp
    simp only [Bool.and_eq_true, beq_iff_eq] at hpppred
    obtain ⟨⟨hppid, hppo⟩, hppact⟩ := hpppred
    simp only [page_delete, hgp, Except.ok.injEq] at hdel
    subst hdel
    have hfindmap : ∀ x : Nat,
        ((db.pages.map (fun q =>
            if q.id == pid then { q with is_active := false } else q)).find?
          (fun p => p.id == x))
        = (db.pages.find? (fun p => p.id == x)).map (fun q =>
            if q.id == pid then { q with is_active := false } else q) := by
      intro x
      rw [List.find?_map]
      have hcomp : ((fun p => p.id == x) ∘ (fun q =>
          if q.id == pid then { q with is_active := false } else q))
          = (fun (p : Page) => p.id == x) := by
        funext q
        by_cases h : (q.id == pid) = true
        · simp only [Function.comp_apply, if_pos h]
        · simp only [Function.comp_apply, if_neg h]
      rw [hcomp]
    have husers : userTodos
        { db with pages := db.pages.map (fun q =>
            if q.id == pid then { q with is_active := false } else q) } o
        = userTodos db o := by
      unfold userTodos
      apply List.filter_congr
      intro t _
      rw [hfindmap t.pageId]
      cases hf : db.pages.find? (fun p => p.id == t.pageId) with
      | none => simp
      | some q =>
        by_cases hq : q.id = pid
        · simp [hq]
        · simp [hq]
    refine ⟨?_, ?_, ?_, ?_, ?_⟩
    · unfold get_total_todos
      rw [husers]
    · unfold get_completed_todos
      rw [husers]
    · unfold get_total_pages
      exact length_filter_map_flip pid o pp hppid hppact hppo db.pages hppmem hn
    · intro q hq hqid
      unfold page_list at hq
      have hq' := List.mem_filter.mp hq
      have hact : q.is_active = true := by
        have h2 := hq'.2
        simp only [Bool.and_eq_true] at h2
        exact h2.2
      have hq'' := hq'.1
      simp only [List.mem_map] at hq''
      obtain ⟨v, hv, hvq⟩ := hq''
      by_cases hvid : (v.id == pid) = true
      · rw [if_pos hvid] at hvq
        rw [← hvq] at hact
        simp at hact
      · rw [if_neg hvid] at hvq
        subst hvq
        exact absurd hqid (by simpa using hvid)
    · intro t ht hex
      rw [husers]
      unfold userTodos
      rw [List.mem_filter]
      refine ⟨ht, ?_⟩
      obtain ⟨p0, hp0, hp0id, hp0o⟩ := hex
      have hs : (db.pages.find? (fun p => p.id == t.pageId)).isSome := by
        rw [List.find?_isSome]
        exact ⟨p0, hp0, by simp [hp0id]⟩
      cases hfq : db.pages.find? (fun p => p.id == t.pageId) with
      | none => rw [hfq] at hs; simp at hs
      | some q =>
        have h1 := List.find?_some hfq
        have h2 := List.mem_of_find?_eq_some hfq
        simp only [beq_iff_eq] at h1
        have hqp : q = p0 :=
          List.inj_on_of_nodup_map hn h2 hp0 (by rw [h1, hp0id])
        simp [hqp, hp0o]

/-- Witness for C10: owner 1 soft-deletes page 1, which contains one
completed todo; the todo aggregates still count it while the page
aggregate drops to zero. -/
theorem aggregate_scoping_witness :
    get_total_todos ⟨[⟨1, "P", "", 1, 0, false, "#c"⟩],
        [⟨1, "T", "", true, "medium", 1, 0, none, some 3, 0⟩], 2, 2⟩ 1
      = get_total_todos ⟨[⟨1, "P", "", 1, 0, true, "#c"⟩],
        [⟨1, "T", "", true, "medium", 1, 0, none, some 3, 0⟩], 2, 2⟩ 1 ∧
    get_completed_todos ⟨[⟨1, "P", "", 1, 0, false, "#c"⟩],
        [⟨1, "T", "", true, "medium", 1, 0, none, some 3, 0⟩], 2, 2⟩ 1
      = get_completed_todos ⟨[⟨1, "P", "", 1, 0, true, "#c"⟩],
        [⟨1, "T", "", true, "medium", 1, 0, none, some 3, 0⟩], 2, 2⟩ 1 ∧
    get_total_pages ⟨[⟨1, "P", "", 1, 0, false, "#c"⟩],
        [⟨1, "T", "", true, "medium", 1, 0, none, some 3, 0⟩], 2, 2⟩ 1 + 1
      = get_total_pages ⟨[⟨1, "P", "", 1, 0, true, "#c"⟩],
        [⟨1, "T", "", true, "medium", 1, 0, none, some 3, 0⟩], 2, 2⟩ 1 ∧
    (∀ p ∈ page_list ⟨[⟨1, "P", "", 1, 0, false, "#c"⟩],
        [⟨1, "T", "", true, "medium", 1, 0, none, some 3, 0⟩], 2, 2⟩ 1, p.id ≠ 1) ∧
    (∀ t ∈ (⟨[⟨1, "P", "", 1, 0, true, "#c"⟩],
        [⟨1, "T", "", true, "medium", 1, 0, none, some 3, 0⟩], 2, 2⟩ : DB).todos,
      (∃ p ∈ (⟨[⟨1, "P", "", 1, 0, true, "#c"⟩],
          [⟨1, "T", "", true, "medium", 1, 0, none, some 3, 0⟩], 2, 2⟩ : DB).pages,
        p.id = t.pageId ∧ p.owner = 1) →
      t ∈ userTodos ⟨[⟨1, "P", "", 1, 0, false, "#c"⟩],
        [⟨1, "T", "", true, "medium", 1, 0, none, some 3, 0⟩], 2, 2⟩ 1) :=
  aggregate_scoping
    ⟨[⟨1, "P", "", 1, 0, true, "#c"⟩],
     [⟨1, "T", "", true, "medium", 1, 0, none, some 3, 0⟩], 2, 2⟩
    ⟨[⟨1, "P", "", 1, 0, false, "#c"⟩],
     [⟨1, "T", "", true, "medium", 1, 0, none, some 3, 0⟩], 2, 2⟩
    1 1 (by decide) rfl
